import Mathlib

/-!
Verification of the poly repository's complete-set arbitrage pipeline.

The Python sources are shallowly embedded: Python floats become rationals
(`ℚ`), Python dicts become insertion-ordered association lists, `None`
becomes `Option`, and the stateful classes become explicit state records
threaded through pure functions.  Wall-clock reads (`datetime.now`,
`time.monotonic`) become explicit `ℚ` parameters, and network responses
become explicit inputs.
-/

namespace Poly

/-- Association-list lookup, modelling Python `dict.get`. -/
def alookup {α β : Type} [DecidableEq α] : List (α × β) → α → Option β
  | [], _ => none
  | (k, v) :: rest, key => if k = key then some v else alookup rest key

/-- Association-list write, modelling Python `dict[k] = v`: an existing key is
overwritten in place, a new key is appended at the end (Python dicts preserve
insertion order). -/
def aput {α β : Type} [DecidableEq α] : List (α × β) → α → β → List (α × β)
  | [], k, v => [(k, v)]
  | (k', v') :: rest, k, v =>
      if k' = k then (k, v) :: rest else (k', v') :: aput rest k v

/-! ## Data model: `src/data/polymarket_client.py` / `src/pricing/market_arbitrage.py` -/

/-- `NormalizedMarketData` from `src/data/polymarket_client.py` (lines 34-50).
The `raw`, `latency_ms` and `lag_seconds` fields are derived metadata not read
by any embedded consumer and are omitted. -/
structure NormalizedMarketData where
  market_id : String
  outcome_id : Option String
  bid : Option ℚ
  ask : Option ℚ
  size : Option ℚ
  last_trade : Option ℚ
  fee_bps : Option ℤ
  liquidity : Option ℚ
  type : String
  sequence : Option ℤ := none
  deriving DecidableEq, Repr

/-- `OutcomeQuote` from `src/pricing/market_arbitrage.py` (lines 23-39):
top-of-book snapshot for a single outcome.  `updated_at` is a timestamp. -/
structure OutcomeQuote where
  outcome_id : String
  bid : Option ℚ := none
  ask : Option ℚ := none
  size : Option ℚ := none
  fee_bps : Option ℤ := none
  updated_at : ℚ := 0
  deriving DecidableEq, Repr

/-- `OutcomeQuote.update_from` (market_arbitrage.py lines 34-39): a field is
only overwritten when the incoming event carries a non-null value for it. -/
def OutcomeQuote.update_from (q : OutcomeQuote) (d : NormalizedMarketData)
    (now : ℚ) : OutcomeQuote :=
  { q with
    bid := match d.bid with | some b => some b | none => q.bid
    ask := match d.ask with | some a => some a | none => q.ask
    size := match d.size with | some s => some s | none => q.size
    fee_bps := match d.fee_bps with | some f => some f | none => q.fee_bps
    updated_at := now }

/-- `MarketBook` from market_arbitrage.py (lines 42-60): aggregated order book
state across all outcomes in a market.  `outcomes` is the insertion-ordered
dict of outcome id to quote. -/
structure MarketBook where
  market_id : String
  outcomes : List (String × OutcomeQuote) := []
  fee_bps : Option ℤ := none
  last_update : ℚ := 0
  deriving DecidableEq, Repr

/-- Key used by `MarketBook.update_from`: `data.outcome_id or "default"`
(Python `or` treats the empty string as falsy). -/
def outcomeKeyOf (d : NormalizedMarketData) : String :=
  match d.outcome_id with
  | none => "default"
  | some s => if s = "" then "default" else s

/-- `dict.setdefault` followed by `OutcomeQuote.update_from`, as performed by
`MarketBook.update_from` (market_arbitrage.py lines 51-54). -/
def updateOutcomeList (now : ℚ) (d : NormalizedMarketData) :
    List (String × OutcomeQuote) → String → List (String × OutcomeQuote)
  | [], oid => [(oid, OutcomeQuote.update_from { outcome_id := oid } d now)]
  | (k, q) :: rest, oid =>
      if k = oid then (k, q.update_from d now) :: rest
      else (k, q) :: updateOutcomeList now d rest oid

/-- `MarketBook.update_from` (market_arbitrage.py lines 51-57). -/
def MarketBook.update_from (m : MarketBook) (d : NormalizedMarketData)
    (now : ℚ) : MarketBook :=
  { m with
    outcomes := updateOutcomeList now d m.outcomes (outcomeKeyOf d)
    fee_bps := match d.fee_bps with | some f => some f | none => m.fee_bps
    last_update := now }

/-- `CompleteSetOpportunity` from market_arbitrage.py (lines 63-72).  The
`details` map of floats is diagnostic-only and omitted. -/
structure CompleteSetOpportunity where
  market_id : String
  direction : String
  edge : ℚ
  notional : ℚ
  max_size : ℚ
  deriving DecidableEq, Repr

/-! ## `MarketArbitrageDetector` (`src/pricing/market_arbitrage.py`) -/

/-- Python `min(sizes) if sizes else 0.0` (market_arbitrage.py line 118). -/
def minList : List ℚ → ℚ
  | [] => 0
  | x :: xs => xs.foldl min x

/-- Sizes collected by the detection loop (market_arbitrage.py lines 115-116):
every quote carrying a size contributes, regardless of which sides it quotes. -/
def collectedSizes (m : MarketBook) : List ℚ :=
  (m.outcomes.map Prod.snd).filterMap (fun q => q.size)

/-- `fee_multiplier = 1 + (market.fee_bps or 0) / 10_000`
(market_arbitrage.py line 105). -/
def feeMultiplier (m : MarketBook) : ℚ :=
  1 + ((m.fee_bps.getD 0 : ℤ) : ℚ) / 10000

/-- Accumulated `ask_sum` (market_arbitrage.py lines 111-112): each known ask
contributes `ask * fee_multiplier`. -/
def askSumOf (m : MarketBook) : ℚ :=
  ((m.outcomes.map Prod.snd).filterMap (fun q => q.ask)).foldl
    (fun acc a => acc + a * feeMultiplier m) 0

/-- Accumulated `bid_sum` (market_arbitrage.py lines 113-114): each known bid
contributes `bid * (2 - fee_multiplier)`. -/
def bidSumOf (m : MarketBook) : ℚ :=
  ((m.outcomes.map Prod.snd).filterMap (fun q => q.bid)).foldl
    (fun acc b => acc + b * (2 - feeMultiplier m)) 0

/-- `MarketArbitrageDetector._edge_meets_threshold` (market_arbitrage.py
lines 151-153). -/
def edgeMeetsThreshold (minEdgeBps : ℚ) (edge : ℚ) : Bool :=
  minEdgeBps / 10000 ≤ edge

/-- `MarketArbitrageDetector._best_opportunity` (market_arbitrage.py lines
155-158): Python `max(list, key=...)` returns the first element attaining the
maximal key, so a later element only replaces the running best when strictly
larger. -/
def bestOpportunity : List CompleteSetOpportunity → Option CompleteSetOpportunity
  | [] => none
  | o :: rest =>
      some (rest.foldl (fun best c => if best.edge < c.edge then c else best) o)

/-- `MarketArbitrageDetector._detect_complete_set_arb` (market_arbitrage.py
lines 100-149). -/
def detectCompleteSetArb (minEdgeBps : ℚ) (market : MarketBook) :
    Option CompleteSetOpportunity :=
  if market.outcomes.length < 2 then none
  else
    let askSum := askSumOf market
    let bidSum := bidSumOf market
    let maxSize := minList (collectedSizes market)
    if maxSize ≤ 0 then none
    else
      let buyEdge := 1 - askSum
      let sellEdge := bidSum - 1
      let buys : List CompleteSetOpportunity :=
        if edgeMeetsThreshold minEdgeBps buyEdge then
          [{ market_id := market.market_id, direction := "buy_set",
             edge := buyEdge, notional := askSum, max_size := maxSize }]
        else []
      let sells : List CompleteSetOpportunity :=
        if edgeMeetsThreshold minEdgeBps sellEdge then
          [{ market_id := market.market_id, direction := "sell_set",
             edge := sellEdge, notional := bidSum, max_size := maxSize }]
        else []
      bestOpportunity (buys ++ sells)

/-- State of `MarketArbitrageDetector` (market_arbitrage.py lines 89-91). -/
structure DetectorState where
  min_edge_bps : ℚ := 10
  markets : List (String × MarketBook) := []
  deriving DecidableEq, Repr

/-- `MarketArbitrageDetector.ingest` (market_arbitrage.py lines 93-98): no-op
for non-order-book events; otherwise `setdefault` the market book, update it
from the event, and re-evaluate. -/
def DetectorState.ingest (st : DetectorState) (d : NormalizedMarketData)
    (now : ℚ) : Option CompleteSetOpportunity × DetectorState :=
  if d.type = "order_book" ∨ d.type = "order_book_snapshot" then
    let book :=
      (alookup st.markets d.market_id).getD { market_id := d.market_id }
    let book := book.update_from d now
    (detectCompleteSetArb st.min_edge_bps book,
     { st with markets := aput st.markets d.market_id book })
  else (none, st)

/-! ## `PolymarketClient` sequence tracking and normalization
(`src/data/polymarket_client.py`) -/

/-- Result of one `_detect_sequence_gap` call (polymarket_client.py lines
383-403) together with the updated `_sequence_tracker` dict.  `gap = some g`
means a gap was detected and logged/emitted with size `g = sequence -
previous - 1`; `gap = none` means no gap was reported. -/
structure GapResult where
  gap : Option ℤ
  tracker : List (String × ℤ)
  deriving DecidableEq, Repr

/-- Composite tracker key built by `_detect_sequence_gap` (line 388):
`f"{event_type}:{market_id}:{outcome_id or '*'}"`. -/
def sequenceKey (eventType marketId : String) (outcomeId : Option String) :
    String :=
  let oid := match outcomeId with
    | none => "*"
    | some s => if s = "" then "*" else s
  eventType ++ ":" ++ marketId ++ ":" ++ oid

/-- `PolymarketClient._detect_sequence_gap` (polymarket_client.py lines
383-403): a null sequence never reports a gap; the tracker is updated to the
incoming sequence; the first sequence seen for a key reports no gap; the exact
successor `previous + 1` reports no gap; anything else reports a gap of size
`sequence - previous - 1`. -/
def detectSequenceGap (tracker : List (String × ℤ)) (eventType marketId : String)
    (outcomeId : Option String) (sequence : Option ℤ) : GapResult :=
  match sequence with
  | none => { gap := none, tracker := tracker }
  | some s =>
      let key := sequenceKey eventType marketId outcomeId
      let previous := alookup tracker key
      let tracker' := aput tracker key s
      match previous with
      | none => { gap := none, tracker := tracker' }
      | some p =>
          if s = p + 1 then { gap := none, tracker := tracker' }
          else { gap := some (s - p - 1), tracker := tracker' }

/-- Raw order-book/trade payload after field-alias extraction and
`_safe_float`/`_safe_int` coercion (polymarket_client.py lines 157-167 and
192-201).  The alias resolution itself (`bid` vs `quantity` vs `seq` etc.) is
string plumbing on the wire payload and is abstracted into these already
extracted fields. -/
structure RawFeedData where
  market_id : String
  outcome_id : Option String
  bid : Option ℚ := none
  ask : Option ℚ := none
  size : Option ℚ := none
  price : Option ℚ := none
  last_trade : Option ℚ := none
  fee_bps : Option ℤ := none
  liquidity : Option ℚ := none
  sequence : Option ℤ := none
  deriving DecidableEq, Repr

/-- `str(data.get("outcome") or ...) or None` (polymarket_client.py line
159): an absent or empty outcome id becomes null. -/
def normOutcomeId (d : RawFeedData) : Option String :=
  match d.outcome_id with
  | none => none
  | some s => if s = "" then none else some s

/-- The live `NormalizedMarketData` built at the end of
`_normalize_order_book` (polymarket_client.py lines 176-190). -/
def liveOrderBookEvent (d : RawFeedData) : NormalizedMarketData :=
  { market_id := d.market_id
    outcome_id := normOutcomeId d
    bid := d.bid
    ask := d.ask
    size := d.size
    last_trade := d.last_trade
    fee_bps := d.fee_bps
    liquidity := d.liquidity
    type := "order_book"
    sequence := d.sequence }

/-- The live `NormalizedMarketData` built at the end of `_normalize_trade`
(polymarket_client.py lines 210-224): bid/ask are null and the traded price
lands in `last_trade`. -/
def liveTradeEvent (d : RawFeedData) : NormalizedMarketData :=
  { market_id := d.market_id
    outcome_id := normOutcomeId d
    bid := none
    ask := none
    size := d.size
    last_trade := d.price
    fee_bps := d.fee_bps
    liquidity := d.liquidity
    type := "trade"
    sequence := d.sequence }

/-- Result of a `_normalize_order_book` / `_normalize_trade` call: the event
yielded downstream (if any), the updated sequence tracker, and the number of
REST fallback fetches issued during the call. -/
structure NormalizeResult where
  event : Option NormalizedMarketData
  tracker : List (String × ℤ)
  restCalls : ℕ
  deriving DecidableEq, Repr

/-- `PolymarketClient._normalize_order_book` (polymarket_client.py lines
157-190).  The REST snapshot fetch is a network effect; its outcome is the
`fallback` parameter (`none` models every failure path of
`fetch_order_book_snapshot`, which logs and returns `None`).  A fetch is
issued exactly when a gap is detected; a successful fetch substitutes the
snapshot for the live message, otherwise the live message is returned. -/
def normalizeOrderBook (tracker : List (String × ℤ)) (d : RawFeedData)
    (fallback : Option NormalizedMarketData) : NormalizeResult :=
  if d.market_id = "" then
    { event := none, tracker := tracker, restCalls := 0 }
  else
    let res := detectSequenceGap tracker "orderbook" d.market_id
      (normOutcomeId d) d.sequence
    match res.gap with
    | some _ =>
        match fallback with
        | some snapshot =>
            { event := some snapshot, tracker := res.tracker, restCalls := 1 }
        | none =>
            { event := some (liveOrderBookEvent d), tracker := res.tracker,
              restCalls := 1 }
    | none =>
        { event := some (liveOrderBookEvent d), tracker := res.tracker,
          restCalls := 0 }

/-- `PolymarketClient._normalize_trade` (polymarket_client.py lines 192-224),
with the REST result of `fetch_trades_snapshot` as the `fallback` parameter. -/
def normalizeTrade (tracker : List (String × ℤ)) (d : RawFeedData)
    (fallback : Option NormalizedMarketData) : NormalizeResult :=
  if d.market_id = "" then
    { event := none, tracker := tracker, restCalls := 0 }
  else
    let res := detectSequenceGap tracker "trade" d.market_id
      (normOutcomeId d) d.sequence
    match res.gap with
    | some _ =>
        match fallback with
        | some snapshot =>
            { event := some snapshot, tracker := res.tracker, restCalls := 1 }
        | none =>
            { event := some (liveTradeEvent d), tracker := res.tracker,
              restCalls := 1 }
    | none =>
        { event := some (liveTradeEvent d), tracker := res.tracker,
          restCalls := 0 }

/-! ## Risk and PnL leaves (`src/risk/limits.py`, `src/risk/inventory.py`,
`src/risk/pnl.py`) -/

/-- `RiskLimits` from `src/risk/limits.py`. -/
structure RiskLimits where
  max_notional_usd : ℚ
  max_position_sizes : List (String × ℚ)
  daily_loss_limit_usd : ℚ
  deriving DecidableEq, Repr

/-- `RiskLimits.validate_position` (limits.py lines 15-19):
`max_size is not None and abs(proposed_size) <= max_size`. -/
def RiskLimits.validate_position (rl : RiskLimits) (symbol : String)
    (proposed_size : ℚ) : Bool :=
  match alookup rl.max_position_sizes symbol with
  | none => false
  | some m => decide (|proposed_size| ≤ m)

/-- `RiskLimits.validate_loss` (limits.py lines 21-24). -/
def RiskLimits.validate_loss (rl : RiskLimits) (realized_loss_usd : ℚ) : Bool :=
  decide (realized_loss_usd ≤ rl.daily_loss_limit_usd)

/-- `InventoryCaps` from `src/risk/inventory.py`. -/
structure InventoryCaps where
  caps : List (String × ℚ)
  deriving DecidableEq, Repr

/-- `InventoryCaps.within_caps` (inventory.py lines 13-17):
`cap is not None and abs(proposed_inventory) <= cap`. -/
def InventoryCaps.within_caps (ic : InventoryCaps) (symbol : String)
    (proposed_inventory : ℚ) : Bool :=
  match alookup ic.caps symbol with
  | none => false
  | some cap => decide (|proposed_inventory| ≤ cap)

/-- `PositionPnL` from `src/risk/pnl.py`. -/
structure PositionPnL where
  symbol : String
  realized : ℚ := 0
  unrealized : ℚ := 0
  deriving DecidableEq, Repr

/-- `PnLTracker.add_realized` (pnl.py lines 34-38). -/
def addRealized (pnl : List (String × PositionPnL)) (symbol : String)
    (value : ℚ) : List (String × PositionPnL) :=
  let p := (alookup pnl symbol).getD { symbol := symbol }
  aput pnl symbol { p with realized := p.realized + value }

/-- `PnLTracker.update_unrealized` (pnl.py lines 28-32). -/
def updateUnrealized (pnl : List (String × PositionPnL)) (symbol : String)
    (value : ℚ) : List (String × PositionPnL) :=
  let p := (alookup pnl symbol).getD { symbol := symbol }
  aput pnl symbol { p with unrealized := value }

/-! ## Order management (`src/execution/order_manager.py`) -/

/-- `OrderRequest` from order_manager.py. -/
structure OrderRequest where
  symbol : String
  side : String
  order_type : String
  quantity : ℚ
  price : Option ℚ := none
  deriving DecidableEq, Repr

/-- `OrderState` from order_manager.py. -/
structure OrderState where
  order_id : String
  request : OrderRequest
  status : String := "new"
  filled_quantity : ℚ := 0
  deriving DecidableEq, Repr

/-! ## `PolymarketExecutor` (`src/execution/polymarket_executor.py`) -/

/-- `Position` from polymarket_executor.py (lines 73-79). -/
structure Position where
  symbol : String
  quantity : ℚ := 0
  avg_price : ℚ := 0
  deriving DecidableEq, Repr

/-- `ExecutionConfig` from polymarket_executor.py (lines 48-61).  Fields that
no embedded code path reads (timeout, fee cap, hedge failure cap, snapshot
backend settings) are omitted. -/
structure ExecutionConfig where
  max_slippage_pct : ℚ := 1 / 100
  idempotency_ttl_seconds : ℚ := 60
  max_data_staleness_seconds : ℚ := 10
  max_reject_streak : ℕ := 3
  deriving DecidableEq, Repr

/-- `ExecutionReport` from polymarket_executor.py (lines 64-70). -/
structure ExecutionReport where
  orders : List OrderState := []
  skipped : Bool := false
  reason : Option String := none
  deriving DecidableEq, Repr

/-- Idempotency key: the Python code formats
`f"{market_id}:{direction}:{round(edge, 6)}"`; the triple is an equivalent
model of that identity. -/
abbrev OppKey := String × String × ℚ

/-- Python `round(x, 6)` over exact rationals: scale by `10^6` and round half
to even. -/
def pyRound6 (q : ℚ) : ℚ :=
  let scaled := q * 1000000
  let n := ⌊scaled⌋
  let frac := scaled - (n : ℚ)
  let r : ℤ :=
    if frac < 1 / 2 then n
    else if 1 / 2 < frac then n + 1
    else if n % 2 = 0 then n else n + 1
  (r : ℚ) / 1000000

/-- `PolymarketExecutor._opportunity_key` (polymarket_executor.py lines
534-535). -/
def oppKey (opp : CompleteSetOpportunity) : OppKey :=
  (opp.market_id, opp.direction, pyRound6 opp.edge)

/-- Mutable state of one `PolymarketExecutor` instance (constructor, lines
108-112), together with the attached `OrderManager` map. -/
structure ExecState where
  recent_opportunities : List (OppKey × ℚ) := []
  positions : List (String × Position) := []
  inventory : List (String × ℚ) := []
  pnl : List (String × PositionPnL) := []
  orders : List (String × OrderState) := []
  reject_streak : ℕ := 0
  halted_reason : Option String := none
  deriving DecidableEq, Repr

/-- Immutable collaborators/configuration of one executor instance.
`hedge_circuit_open` models `self.hedge_executor and
self.hedge_executor.circuit_open` (a hedge executor being attached with its
circuit open). -/
structure Executor where
  cfg : ExecutionConfig := {}
  risk_limits : Option RiskLimits := none
  inventory_caps : Option InventoryCaps := none
  hedge_circuit_open : Bool := false
  deriving DecidableEq, Repr

/-- `PolymarketExecutor._trip_circuit` (polymarket_executor.py lines 284-289). -/
def tripCircuit (st : ExecState) (reason : String) : ExecState :=
  { st with halted_reason := some reason }

/-- `PolymarketExecutor._handle_reject` (polymarket_executor.py lines
391-394): increment the streak and trip the circuit with reason
"reject_streak" once it reaches `max_reject_streak`. -/
def handleReject (cfg : ExecutionConfig) (st : ExecState) : ExecState :=
  let streak := st.reject_streak + 1
  let st := { st with reject_streak := streak }
  if cfg.max_reject_streak ≤ streak then tripCircuit st "reject_streak" else st

/-- `PolymarketExecutor._claim_idempotency` (polymarket_executor.py lines
526-532).  Python's `if recent and now - recent < ttl` treats both a missing
entry and a stored timestamp of exactly `0.0` as falsy. -/
def claimIdempotency (ttl : ℚ) (ledger : List (OppKey × ℚ)) (key : OppKey)
    (now : ℚ) : Bool × List (OppKey × ℚ) :=
  match alookup ledger key with
  | some recent =>
      if recent ≠ 0 ∧ now - recent < ttl then (false, ledger)
      else (true, aput ledger key now)
  | none => (true, aput ledger key now)

/-- `PolymarketExecutor._sum_field(market, "ask")` (polymarket_executor.py
lines 376-382): raw sum of the asks that are present. -/
def sumFieldAsk (market : MarketBook) : ℚ :=
  ((market.outcomes.map Prod.snd).filterMap (fun q => q.ask)).foldl (· + ·) 0

/-- `PolymarketExecutor._sum_field(market, "bid")`. -/
def sumFieldBid (market : MarketBook) : ℚ :=
  ((market.outcomes.map Prod.snd).filterMap (fun q => q.bid)).foldl (· + ·) 0

/-- `PolymarketExecutor._edge_survives_costs` (polymarket_executor.py lines
291-304): re-validation against the current book with slippage and fee
multiplier applied. -/
def edgeSurvivesCosts (cfg : ExecutionConfig) (opp : CompleteSetOpportunity)
    (market : MarketBook) : Bool :=
  let feeMult := 1 + ((market.fee_bps.getD 0 : ℤ) : ℚ) / 10000
  if opp.direction = "buy_set" then
    let askSum := sumFieldAsk market
    if askSum ≤ 0 then false
    else decide (askSum * (1 + cfg.max_slippage_pct) * feeMult < 1)
  else
    let bidSum := sumFieldBid market
    if bidSum ≤ 0 then false
    else decide (1 < bidSum * (1 - cfg.max_slippage_pct) / feeMult)

/-- `PolymarketExecutor._estimate_notional` (polymarket_executor.py lines
306-311). -/
def estimateNotional (cfg : ExecutionConfig) (opp : CompleteSetOpportunity)
    (market : MarketBook) (size : ℚ) : ℚ :=
  let unit :=
    if opp.direction = "buy_set" then
      sumFieldAsk market * (1 + cfg.max_slippage_pct)
    else sumFieldBid market * (1 - cfg.max_slippage_pct)
  max unit 0 * size

/-- `PolymarketExecutor._projected_inventory` (polymarket_executor.py lines
355-370): every outcome leg shifts by the signed trade size; a sell_set also
books `+trade_size` on the synthetic mint symbol. -/
def projectedInventory (positions : List (String × Position))
    (opp : CompleteSetOpportunity) (market : MarketBook) (tradeSize : ℚ) :
    List (String × ℚ) :=
  let delta := if opp.direction = "buy_set" then tradeSize else -tradeSize
  let base := (market.outcomes.map Prod.snd).filterMap (fun q =>
    let v := if opp.direction = "buy_set" then q.ask else q.bid
    match v with
    | none => none
    | some _ =>
        let symbol := market.market_id ++ ":" ++ q.outcome_id
        let current :=
          ((alookup positions symbol).getD { symbol := symbol }).quantity
        some (symbol, current + delta))
  if opp.direction = "buy_set" then base
  else
    let mintSymbol := market.market_id
    let currentMint :=
      ((alookup positions mintSymbol).getD { symbol := mintSymbol }).quantity
    base ++ [(mintSymbol, currentMint + tradeSize)]

/-- `PolymarketExecutor._positions_within_limits` (polymarket_executor.py
lines 336-353): every projected leg must pass the inventory cap and the risk
position limit when those collaborators are attached. -/
def positionsWithinLimits (ex : Executor) (st : ExecState)
    (opp : CompleteSetOpportunity) (market : MarketBook) (tradeSize : ℚ) :
    Bool :=
  (projectedInventory st.positions opp market tradeSize).all (fun sp =>
    (match ex.inventory_caps with
     | some ic => ic.within_caps sp.1 sp.2
     | none => true) &&
    (match ex.risk_limits with
     | some rl => rl.validate_position sp.1 sp.2
     | none => true))

/-- `PolymarketExecutor._current_realized_loss` (polymarket_executor.py lines
372-374). -/
def currentRealizedLoss (pnl : List (String × PositionPnL)) : ℚ :=
  ((pnl.map Prod.snd).filter (fun p => decide (p.realized < 0))).foldl
    (fun acc p => acc + (-p.realized)) 0

/-- `PolymarketExecutor._passes_risk_limits` (polymarket_executor.py lines
313-334); a daily-loss breach also trips the circuit. -/
def passesRiskLimits (ex : Executor) (st : ExecState)
    (opp : CompleteSetOpportunity) (market : MarketBook)
    (tradeSize notional : ℚ) : Bool × ExecState :=
  if (match ex.risk_limits with
      | some rl => decide (rl.max_notional_usd < notional)
      | none => false) then (false, st)
  else if positionsWithinLimits ex st opp market tradeSize = false then
    (false, st)
  else
    match ex.risk_limits with
    | some rl =>
        if rl.validate_loss (currentRealizedLoss st.pnl) = false then
          (false, tripCircuit st "daily_loss_limit")
        else (true, st)
    | none => (true, st)

/-- `PolymarketExecutor._apply_fill_to_position` (polymarket_executor.py lines
412-449): realize PnL over the portion closing opposite exposure, then extend
any remaining quantity with weighted-average-cost blending; a flat or
sign-flipping position takes the fill price as its new average.  Returns the
updated position and the realized PnL. -/
def applyFillToPosition (position : Position) (side : String)
    (quantity price : ℚ) : Position × ℚ :=
  let step1 : ℚ × ℚ × ℚ :=
    if side = "buy" ∧ position.quantity < 0 then
      let closing := min quantity (-position.quantity)
      ((position.avg_price - price) * closing, position.quantity + closing,
       quantity - closing)
    else (0, position.quantity, quantity)
  let realized := step1.1
  let qty1 := step1.2.1
  let rem1 := step1.2.2
  let step2 : ℚ × ℚ × ℚ :=
    if side = "sell" ∧ qty1 > 0 then
      let closing := min rem1 qty1
      (realized + (price - position.avg_price) * closing, qty1 - closing,
       rem1 - closing)
    else (realized, qty1, rem1)
  let realized := step2.1
  let new_qty := step2.2.1
  let remaining := step2.2.2
  if remaining > 0 then
    if side = "buy" then
      if new_qty ≤ 0 then
        (⟨position.symbol, new_qty + remaining, price⟩, realized)
      else
        let cost := new_qty * position.avg_price + remaining * price
        (⟨position.symbol, new_qty + remaining, cost / (new_qty + remaining)⟩,
         realized)
    else
      if new_qty ≥ 0 then
        (⟨position.symbol, new_qty - remaining, price⟩, realized)
      else
        let total_short := |new_qty|
        (⟨position.symbol, new_qty - remaining,
          (total_short * position.avg_price + remaining * price) /
            |new_qty - remaining|⟩, realized)
  else (⟨position.symbol, new_qty, position.avg_price⟩, realized)

/-- `PolymarketExecutor._mark_price` (polymarket_executor.py lines 459-472):
mid of bid/ask, a single quoted side, or null. -/
def markPrice (symbol : String) (market : MarketBook) : Option ℚ :=
  match symbol.splitOn ":" with
  | [mid, oid] =>
      if market.market_id = mid then
        match alookup market.outcomes oid with
        | none => none
        | some q =>
            match q.bid, q.ask with
            | some b, some a => some ((b + a) / 2)
            | some b, none => some b
            | none, some a => some a
            | none, none => none
      else none
  | _ => none

/-- `PolymarketExecutor._record_fill` (polymarket_executor.py lines 396-410)
followed by `_mark_unrealized` (lines 451-457).  Snapshot persistence is an
external side effect with no bearing on executor state and is omitted. -/
def recordFill (st : ExecState) (request : OrderRequest)
    (filledQuantity price : ℚ) (market : MarketBook) : ExecState :=
  let symbol := request.symbol
  let position := (alookup st.positions symbol).getD { symbol := symbol }
  let res := applyFillToPosition position request.side filledQuantity price
  let updated := res.1
  let realized := res.2
  let st := { st with
    positions := aput st.positions symbol updated
    inventory := aput st.inventory symbol updated.quantity }
  let st :=
    if realized ≠ 0 then { st with pnl := addRealized st.pnl symbol realized }
    else st
  match markPrice symbol market with
  | none => { st with pnl := updateUnrealized st.pnl symbol 0 }
  | some mark =>
      { st with
        pnl := updateUnrealized st.pnl symbol
          ((mark - updated.avg_price) * updated.quantity) }

/-- Venue response to one leg submission, after the alias extraction of
`_extract_status` / `_extract_filled_quantity` / `_extract_fill_price`
(polymarket_executor.py lines 490-524): either the awaited call timed out, or
it returned a payload carrying a rejection marker, a filled quantity
(defaulting to 0) and an optional fill price. -/
inductive LegResponse where
  | timeout
  | reply (rejected : Bool) (filled : ℚ) (price : Option ℚ)
  deriving DecidableEq, Repr

/-- `PolymarketExecutor._extract_fill_price` fallback chain (lines 502-514):
response price, else the request's limit price, else 1.0. -/
def extractFillPrice (respPrice : Option ℚ) (request : OrderRequest) : ℚ :=
  match respPrice with
  | some p => p
  | none => match request.price with | some p => p | none => 1

/-- `PolymarketExecutor._submit_order` (polymarket_executor.py lines 223-256):
record the order before the network call; timeout or rejection marks the
order terminal and bumps the reject streak; a positive fill updates the order
manager, books the fill into positions/PnL, and resets the streak. -/
def submitOrder (ex : Executor) (st : ExecState) (request : OrderRequest)
    (orderId : String) (market : MarketBook) (resp : LegResponse) :
    OrderState × ExecState :=
  let state0 : OrderState := { order_id := orderId, request := request }
  let st := { st with orders := aput st.orders orderId state0 }
  match resp with
  | .timeout =>
      let state1 := { state0 with status := "timeout" }
      (state1,
       handleReject ex.cfg { st with orders := aput st.orders orderId state1 })
  | .reply rejected filled price =>
      if rejected then
        let state1 := { state0 with status := "rejected" }
        (state1,
         handleReject ex.cfg
           { st with orders := aput st.orders orderId state1 })
      else if 0 < filled then
        let state1 := { state0 with
          filled_quantity := filled
          status :=
            if request.quantity ≤ filled then "filled" else "partial_fill" }
        let st := { st with orders := aput st.orders orderId state1 }
        let st := recordFill st request filled (extractFillPrice price request)
          market
        (state1, { st with reject_streak := 0 })
      else (state0, st)

/-- Leg loop of `PolymarketExecutor._buy_complete_set` (polymarket_executor.py
lines 160-184): one marketable buy per outcome quoting an ask, at
`ask * (1 + max_slippage_pct)`.  The oracle `resp` supplies the venue response
for the `i`-th submission of the attempt, and `"buy-" ++ toString i` stands in
for the fresh uuid order id. -/
def buyLegs (ex : Executor) (marketId : String) (market : MarketBook)
    (size : ℚ) (resp : ℕ → LegResponse) :
    List OutcomeQuote → ExecState → ℕ → List OrderState × ExecState × ℕ
  | [], st, i => ([], st, i)
  | q :: rest, st, i =>
      match q.ask with
      | none => buyLegs ex marketId market size resp rest st i
      | some a =>
          let limitPrice := a * (1 + ex.cfg.max_slippage_pct)
          let request : OrderRequest :=
            { symbol := marketId ++ ":" ++ q.outcome_id, side := "buy",
              order_type := "market", quantity := size,
              price := some limitPrice }
          let res := submitOrder ex st request ("buy-" ++ toString i) market
            (resp i)
          let tail := buyLegs ex marketId market size resp rest res.2 (i + 1)
          (res.1 :: tail.1, tail.2.1, tail.2.2)

/-- Sell-leg loop of `PolymarketExecutor._sell_complete_set`
(polymarket_executor.py lines 199-221). -/
def sellLegs (ex : Executor) (marketId : String) (market : MarketBook)
    (size : ℚ) (resp : ℕ → LegResponse) :
    List OutcomeQuote → ExecState → ℕ → List OrderState × ExecState × ℕ
  | [], st, i => ([], st, i)
  | q :: rest, st, i =>
      match q.bid with
      | none => sellLegs ex marketId market size resp rest st i
      | some b =>
          let limitPrice := b * (1 - ex.cfg.max_slippage_pct)
          let request : OrderRequest :=
            { symbol := marketId ++ ":" ++ q.outcome_id, side := "sell",
              order_type := "market", quantity := size,
              price := some limitPrice }
          let res := submitOrder ex st request ("sell-" ++ toString i) market
            (resp i)
          let tail := sellLegs ex marketId market size resp rest res.2 (i + 1)
          (res.1 :: tail.1, tail.2.1, tail.2.2)

/-- `PolymarketExecutor._sell_complete_set` (polymarket_executor.py lines
186-221): one mint/acquire call sized at the trade size, then one marketable
sell per outcome quoting a bid. -/
def sellCompleteSetLegs (ex : Executor) (marketId : String)
    (market : MarketBook) (size : ℚ) (resp : ℕ → LegResponse)
    (st : ExecState) : List OrderState × ExecState :=
  let mintRequest : OrderRequest :=
    { symbol := marketId, side := "buy", order_type := "market",
      quantity := size, price := none }
  let mintRes := submitOrder ex st mintRequest "mint-0" market (resp 0)
  let tail := sellLegs ex marketId market size resp
    (market.outcomes.map Prod.snd) mintRes.2 1
  (mintRes.1 :: tail.1, tail.2.1)

/-- Report returned by every skipping stage: no orders, `skipped=True`, one
reason. -/
def skipReport (reason : Option String) : ExecutionReport :=
  { orders := [], skipped := true, reason := reason }

/-- `trade_size = min(size or opportunity.max_size, opportunity.max_size)`
(polymarket_executor.py line 145); Python's `or` treats both `None` and `0.0`
as falsy. -/
def computeTradeSize (size : Option ℚ) (opp : CompleteSetOpportunity) : ℚ :=
  min
    (match size with
     | none => opp.max_size
     | some s => if s = 0 then opp.max_size else s) opp.max_size

/-- Stages 4-7 of `execute_complete_set` (idempotency claim, edge
re-validation, size, risk) followed by leg submission
(polymarket_executor.py lines 130-158). -/
def executeStagesFrom4 (ex : Executor) (st : ExecState)
    (opp : CompleteSetOpportunity) (market : MarketBook) (size : Option ℚ)
    (nowMono : ℚ) (resp : ℕ → LegResponse) : ExecutionReport × ExecState :=
  let key := oppKey opp
  let claim := claimIdempotency ex.cfg.idempotency_ttl_seconds
    st.recent_opportunities key nowMono
  if claim.1 = false then (skipReport (some "duplicate"), st)
  else
    let st := { st with recent_opportunities := claim.2 }
    if edgeSurvivesCosts ex.cfg opp market = false then
      (skipReport (some "edge_erased"), st)
    else
      let tradeSize := computeTradeSize size opp
      if tradeSize ≤ 0 then (skipReport (some "no_size_available"), st)
      else
        let notional := estimateNotional ex.cfg opp market tradeSize
        let risk := passesRiskLimits ex st opp market tradeSize notional
        if risk.1 = false then (skipReport (some "risk_blocked"), risk.2)
        else
          let st := risk.2
          if opp.direction = "buy_set" then
            let legs := buyLegs ex opp.market_id market tradeSize resp
              (market.outcomes.map Prod.snd) st 0
            ({ orders := legs.1 }, legs.2.1)
          else
            let legs := sellCompleteSetLegs ex opp.market_id market
              tradeSize resp st
            ({ orders := legs.1 }, legs.2)

/-- `PolymarketExecutor.execute_complete_set` (polymarket_executor.py lines
114-158): the admission pipeline (circuit, staleness, hedge circuit, then
stages 4-7 and leg submission).  `nowWall` models `datetime.now` used for
staleness, `nowMono` models `time.monotonic` used by the idempotency ledger,
and `resp` supplies venue responses per leg. -/
def executeCompleteSet (ex : Executor) (st : ExecState)
    (opp : CompleteSetOpportunity) (market : MarketBook) (size : Option ℚ)
    (nowWall nowMono : ℚ) (resp : ℕ → LegResponse) :
    ExecutionReport × ExecState :=
  match st.halted_reason with
  | some r => (skipReport (some r), st)
  | none =>
    if ex.cfg.max_data_staleness_seconds < nowWall - market.last_update then
      (skipReport (some "stale_data"), tripCircuit st "stale_data")
    else if ex.hedge_circuit_open then
      (skipReport (some "hedge_circuit"), tripCircuit st "hedge_circuit")
    else executeStagesFrom4 ex st opp market size nowMono resp

/-- Arguments of one `execute_complete_set` call, for iterating the pipeline
over a sequence of attempts. -/
structure CallArgs where
  opp : CompleteSetOpportunity
  market : MarketBook
  size : Option ℚ
  nowWall : ℚ
  nowMono : ℚ
  resp : ℕ → LegResponse

/-- Iterated `execute_complete_set` calls against one executor instance,
threading the mutable state. -/
def runCalls (ex : Executor) :
    ExecState → List CallArgs → List ExecutionReport × ExecState
  | st, [] => ([], st)
  | st, c :: rest =>
      let r := executeCompleteSet ex st c.opp c.market c.size c.nowWall
        c.nowMono c.resp
      let rs := runCalls ex r.2 rest
      (r.1 :: rs.1, rs.2)

/-! ## Spec-side definitions

These definitions follow the wording of the specification (not the code) and
are compared against the embedded code in the refinement-style theorems
below. -/

/-- Spec: `ask_sum = Σ ask_i · fee_multiplier` over outcomes with a known
ask. -/
def specAskSum (m : MarketBook) : ℚ :=
  (((m.outcomes.map Prod.snd).filterMap (fun q => q.ask)).map
    (fun a => a * feeMultiplier m)).sum

/-- Spec: `bid_sum = Σ bid_i · (2 − fee_multiplier)` over outcomes with a
known bid. -/
def specBidSum (m : MarketBook) : ℚ :=
  (((m.outcomes.map Prod.snd).filterMap (fun q => q.bid)).map
    (fun b => b * (2 - feeMultiplier m))).sum

/-- Spec: the buy_set opportunity with `edge = 1 − ask_sum`, notional
`ask_sum` and `max_size` the minimum collected size. -/
def specBuyOpportunity (m : MarketBook) : CompleteSetOpportunity :=
  { market_id := m.market_id, direction := "buy_set",
    edge := 1 - specAskSum m, notional := specAskSum m,
    max_size := minList (collectedSizes m) }

/-- Spec: the sell_set opportunity with `edge = bid_sum − 1`. -/
def specSellOpportunity (m : MarketBook) : CompleteSetOpportunity :=
  { market_id := m.market_id, direction := "sell_set",
    edge := specBidSum m - 1, notional := specBidSum m,
    max_size := minList (collectedSizes m) }

/-- Spec (claim C8): the minimum outcome size over outcomes that quote the
side relevant to the opportunity direction. -/
def specSideMinSize (m : MarketBook) (direction : String) : ℚ :=
  minList ((m.outcomes.map Prod.snd).filterMap (fun q =>
    match (if direction = "buy_set" then q.ask else q.bid) with
    | none => none
    | some _ => q.size))

/-! ## Concrete inputs used by the end-to-end examples, counterexamples and
witnesses -/

/-- Order-book event for market m1, outcome yes: bid 0.52, ask 0.45, size 10. -/
def c1EventYes : NormalizedMarketData :=
  { market_id := "m1", outcome_id := some "yes", bid := some (52 / 100),
    ask := some (45 / 100), size := some 10, last_trade := none,
    fee_bps := none, liquidity := none, type := "order_book" }

/-- Order-book event for market m1, outcome no: bid 0.52, ask 0.45, size 12. -/
def c1EventNo : NormalizedMarketData :=
  { market_id := "m1", outcome_id := some "no", bid := some (52 / 100),
    ask := some (45 / 100), size := some 12, last_trade := none,
    fee_bps := none, liquidity := none, type := "order_book" }

/-- Fresh detector configured with `min_edge_bps = 1.0`. -/
def c1Detector : DetectorState := { min_edge_bps := 1 }

/-- The m1 book holding both outcome quotes, as built by the two ingests. -/
def c1Book : MarketBook :=
  { market_id := "m1",
    outcomes :=
      [("yes", { outcome_id := "yes", bid := some (52 / 100),
                 ask := some (45 / 100), size := some 10 }),
       ("no", { outcome_id := "no", bid := some (52 / 100),
                ask := some (45 / 100), size := some 12 })] }

/-- A detected buy_set opportunity for m1, used by the execution examples. -/
def oppBuy : CompleteSetOpportunity :=
  { market_id := "m1", direction := "buy_set", edge := 1 / 10,
    notional := 9 / 10, max_size := 10 }

/-- Executor with default configuration and no attached collaborators. -/
def ex0 : Executor := {}

/-- Fresh executor state. -/
def st0 : ExecState := {}

/-- Executor state whose ledger already holds a claim on `oppBuy`'s key at
monotonic time 5. -/
def st5 : ExecState := { recent_opportunities := [(oppKey oppBuy, 5)] }

/-- Executor state two rejects into a streak. -/
def st2 : ExecState := { reject_streak := 2 }

/-- Venue oracle whose every response times out (never reached in the skip
scenarios that use it). -/
def respTimeout : ℕ → LegResponse := fun _ => .timeout

/-- Current m1 book quoting only bids: the buy side has no asks at all. -/
def bidOnlyBook : MarketBook :=
  { market_id := "m1",
    outcomes :=
      [("yes", { outcome_id := "yes", bid := some (52 / 100),
                 size := some 10 }),
       ("no", { outcome_id := "no", bid := some (52 / 100),
                size := some 12 })] }

/-- Current m1 book whose asks have risen to 0.60 each: the buy edge is
erased. -/
def richAskBook : MarketBook :=
  { market_id := "m1",
    outcomes :=
      [("yes", { outcome_id := "yes", bid := some (52 / 100),
                 ask := some (3 / 5), size := some 10 }),
       ("no", { outcome_id := "no", bid := some (52 / 100),
                ask := some (3 / 5), size := some 12 })] }

/-- Book with a third outcome that carries a size but quotes no side. -/
def c8Book : MarketBook :=
  { market_id := "m8",
    outcomes :=
      [("a", { outcome_id := "a", ask := some (2 / 5), size := some 10 }),
       ("b", { outcome_id := "b", ask := some (2 / 5), size := some 8 }),
       ("c", { outcome_id := "c", size := some 2 })] }

/-- The opportunity the detector emits on `c8Book` at `min_edge_bps = 10`. -/
def c8Opp : CompleteSetOpportunity :=
  { market_id := "m8", direction := "buy_set", edge := 1 / 5,
    notional := 4 / 5, max_size := 2 }

/-- Executor with an attached empty inventory-caps table. -/
def exCaps : Executor := { inventory_caps := some ⟨[]⟩ }

/-- Risk limits with generous aggregate caps but no per-symbol entries. -/
def rlEmpty : RiskLimits :=
  { max_notional_usd := 1000000, max_position_sizes := [],
    daily_loss_limit_usd := 1000000 }

/-- Executor with attached risk limits whose per-symbol table is empty. -/
def exLimits : Executor := { risk_limits := some rlEmpty }

/-- An order request used by the reject-streak witness. -/
def reqBuyYes : OrderRequest :=
  { symbol := "m1:yes", side := "buy", order_type := "market", quantity := 1 }

/-- Live order-book message with sequence 5 for market m1 (no outcome id). -/
def gapMsg5 : RawFeedData :=
  { market_id := "m1", outcome_id := none, sequence := some 5 }

/-- Follow-up order-book message with sequence 8 for the same key. -/
def gapMsg8 : RawFeedData :=
  { market_id := "m1", outcome_id := none, sequence := some 8 }

/-! ## Theorems -/

/-- Folding addition of `f` over a list equals the accumulator plus the sum of
the mapped list. -/
theorem foldl_add_eq_sum (f : ℚ → ℚ) :
    ∀ (l : List ℚ) (acc : ℚ),
      l.foldl (fun a x => a + f x) acc = acc + (l.map f).sum := by
  intro l
  induction l with
  | nil => intro acc; simp
  | cons x xs ih => intro acc; simp [ih]; ring

/-- The detector's accumulated ask sum equals the spec's
`Σ ask_i · fee_multiplier`. -/
theorem askSumOf_eq_spec (m : MarketBook) : askSumOf m = specAskSum m := by
  unfold askSumOf specAskSum
  rw [foldl_add_eq_sum]
  ring

/-- The detector's accumulated bid sum equals the spec's
`Σ bid_i · (2 − fee_multiplier)`. -/
theorem bidSumOf_eq_spec (m : MarketBook) : bidSumOf m = specBidSum m := by
  unfold bidSumOf specBidSum
  rw [foldl_add_eq_sum]
  ring

/-- C1: for a book with at least 2 outcome quotes and positive max size, the
detector computes `fee_multiplier = 1 + fee_bps/10000`, ask/bid sums as the
spec's fee-adjusted sums, qualifies each side by `edge ≥ min_edge_bps/10000`,
and when both sides qualify deterministically returns the opportunity with
the larger edge (buy_set on a tie).  Concretely, for market m1 with outcome
yes (bid 0.52, ask 0.45, size 10) and outcome no (bid 0.52, ask 0.45, size
12) at `min_edge_bps = 1.0`, ingesting yes returns nothing and ingesting no
returns a buy_set opportunity with edge 0.10, notional 0.90, max_size 10. -/
theorem C1_detector_evaluation :
    (∀ (minEdgeBps : ℚ) (m : MarketBook),
        2 ≤ m.outcomes.length →
        0 < minList (collectedSizes m) →
        detectCompleteSetArb minEdgeBps m =
          if minEdgeBps / 10000 ≤ 1 - specAskSum m then
            if minEdgeBps / 10000 ≤ specBidSum m - 1 then
              some (if 1 - specAskSum m < specBidSum m - 1 then
                      specSellOpportunity m
                    else specBuyOpportunity m)
            else some (specBuyOpportunity m)
          else if minEdgeBps / 10000 ≤ specBidSum m - 1 then
            some (specSellOpportunity m)
          else none) ∧
    (c1Detector.ingest c1EventYes 0).1 = none ∧
    ((c1Detector.ingest c1EventYes 0).2.ingest c1EventNo 0).1 =
      some { market_id := "m1", direction := "buy_set", edge := 1 / 10,
             notional := 9 / 10, max_size := 10 } := by
  refine ⟨?_, ?_, ?_⟩
  · intro minE m hlen hsize
    have ha := askSumOf_eq_spec m
    have hb := bidSumOf_eq_spec m
    simp only [detectCompleteSetArb]
    rw [if_neg (by omega), if_neg (not_le.mpr hsize), ha, hb]
    by_cases h1 : minE / 10000 ≤ 1 - specAskSum m <;>
      by_cases h2 : minE / 10000 ≤ specBidSum m - 1 <;>
        simp [edgeMeetsThreshold, bestOpportunity, h1, h2,
          specBuyOpportunity, specSellOpportunity]
  · simp +decide [DetectorState.ingest, alookup, aput, MarketBook.update_from,
      updateOutcomeList, outcomeKeyOf, OutcomeQuote.update_from,
      detectCompleteSetArb, askSumOf, bidSumOf, collectedSizes, minList,
      feeMultiplier, edgeMeetsThreshold, bestOpportunity, c1Detector,
      c1EventYes, c1EventNo]
  · simp +decide [DetectorState.ingest, alookup, aput, MarketBook.update_from,
      updateOutcomeList, outcomeKeyOf, OutcomeQuote.update_from,
      detectCompleteSetArb, askSumOf, bidSumOf, collectedSizes, minList,
      feeMultiplier, edgeMeetsThreshold, bestOpportunity, c1Detector,
      c1EventYes, c1EventNo]
    norm_num

/-- Witness for C1: the general characterization applied to the concrete m1
book. -/
theorem C1_detector_evaluation_witness :
    2 ≤ c1Book.outcomes.length ∧
    0 < minList (collectedSizes c1Book) ∧
    detectCompleteSetArb 1 c1Book =
      if (1 : ℚ) / 10000 ≤ 1 - specAskSum c1Book then
        if (1 : ℚ) / 10000 ≤ specBidSum c1Book - 1 then
          some (if 1 - specAskSum c1Book < specBidSum c1Book - 1 then
                  specSellOpportunity c1Book
                else specBuyOpportunity c1Book)
        else some (specBuyOpportunity c1Book)
      else if (1 : ℚ) / 10000 ≤ specBidSum c1Book - 1 then
        some (specSellOpportunity c1Book)
      else none :=
  ⟨by decide, by simp [collectedSizes, c1Book, minList],
   C1_detector_evaluation.1 1 c1Book (by decide)
     (by simp [collectedSizes, c1Book, minList])⟩

set_option maxHeartbeats 1600000 in
/-- C2: for every fill applied to a `Position`, the portion closing opposite
exposure realizes `(entry_avg − price) · closed_qty` for a buy closing a
short (resp. `(price − entry_avg) · closed_qty` for a sell closing a long)
over the closed portion only; a remaining opening quantity blends the average
at weighted cost over the position magnitudes; a flat or sign-flipping
position takes `price` as its new average.  Concretely: starting flat, buying
10 at 0.40 then selling 15 at 0.60 realizes 2.0 and leaves −5 units at
average price 0.60. -/
theorem C2_fill_accounting :
    (∀ (p : Position) (q price : ℚ), p.quantity < 0 → 0 ≤ q →
        (applyFillToPosition p "buy" q price).2 =
          (p.avg_price - price) * min q (-p.quantity)) ∧
    (∀ (p : Position) (q price : ℚ), 0 < p.quantity → 0 ≤ q →
        (applyFillToPosition p "sell" q price).2 =
          (price - p.avg_price) * min q p.quantity) ∧
    (∀ (p : Position) (q price : ℚ), 0 < p.quantity → 0 < q →
        (applyFillToPosition p "buy" q price).1 =
          ⟨p.symbol, p.quantity + q,
           (p.quantity * p.avg_price + q * price) / (p.quantity + q)⟩) ∧
    (∀ (p : Position) (q price : ℚ), p.quantity < 0 → 0 < q →
        (applyFillToPosition p "sell" q price).1 =
          ⟨p.symbol, p.quantity - q,
           (|p.quantity| * p.avg_price + q * price) / (|p.quantity| + q)⟩) ∧
    (∀ (p : Position) (q price : ℚ), p.quantity ≤ 0 → -p.quantity < q →
        (applyFillToPosition p "buy" q price).1 =
          ⟨p.symbol, p.quantity + q, price⟩) ∧
    (∀ (p : Position) (q price : ℚ), 0 ≤ p.quantity → p.quantity < q →
        (applyFillToPosition p "sell" q price).1 =
          ⟨p.symbol, p.quantity - q, price⟩) ∧
    applyFillToPosition ⟨"m1:yes", 0, 0⟩ "buy" 10 (2 / 5) =
      (⟨"m1:yes", 10, 2 / 5⟩, 0) ∧
    applyFillToPosition ⟨"m1:yes", 10, 2 / 5⟩ "sell" 15 (3 / 5) =
      (⟨"m1:yes", -5, 3 / 5⟩, 2) := by
  refine ⟨?_, ?_, ?_, ?_, ?_, ?_, ?_, ?_⟩
  · intro p q price hneg hq
    simp only [applyFillToPosition]
    split_ifs <;> simp_all
  · intro p q price hpos hq
    simp only [applyFillToPosition]
    split_ifs <;> simp_all
  · intro p q price hpos hq
    simp only [applyFillToPosition]
    split_ifs <;> simp_all <;> linarith
  · intro p q price hneg hq
    have habs : |p.quantity - q| = |p.quantity| + q := by
      rw [abs_of_neg (by linarith : p.quantity - q < 0), abs_of_neg hneg]
      ring
    simp only [applyFillToPosition]
    split_ifs <;> simp_all <;> linarith
  · intro p q price hle hq
    have hq0 : 0 < q := by linarith [neg_nonneg.mpr hle]
    simp only [applyFillToPosition]
    by_cases hz : p.quantity < 0
    · have hmin : min q (-p.quantity) = -p.quantity :=
        min_eq_right (by linarith)
      split_ifs <;> simp_all <;> linarith
    · have h0 : p.quantity = 0 := le_antisymm hle (not_lt.mp hz)
      split_ifs <;> simp_all <;> linarith
  · intro p q price hge hq
    have hq0 : 0 < q := lt_of_le_of_lt hge hq
    simp only [applyFillToPosition]
    by_cases hz : 0 < p.quantity
    · have hmin : min q p.quantity = p.quantity := min_eq_right (le_of_lt hq)
      split_ifs <;> simp_all <;> linarith
    · have h0 : p.quantity = 0 := le_antisymm (not_lt.mp hz) hge
      split_ifs <;> simp_all <;> linarith
  · norm_num [applyFillToPosition, min_def]
  · norm_num [applyFillToPosition, min_def]
    decide

/-- Witness for C2: a buy of 2 closing part of a short of 3 sold at average
2, filled at price 1, realizes `(2 − 1) · 2`. -/
theorem C2_fill_accounting_witness :
    ((⟨"s", -3, 2⟩ : Position).quantity < 0 ∧ (0 : ℚ) ≤ 2) ∧
    (applyFillToPosition ⟨"s", -3, 2⟩ "buy" 2 1).2 =
      (((⟨"s", -3, 2⟩ : Position).avg_price - 1) *
        min 2 (-(⟨"s", -3, 2⟩ : Position).quantity)) :=
  ⟨⟨by simp, by simp⟩,
   C2_fill_accounting.1 ⟨"s", -3, 2⟩ 2 1 (by simp) (by simp)⟩

/-- C3 counterexample: on an order-book message with a detected sequence gap
(5 then 8) whose REST fallback fails, the claim predicts the feed yields no
event; the code instead yields the live message. -/
theorem C3_drop_counterexample :
    (detectSequenceGap [("orderbook:m1:*", 5)] "orderbook" "m1" none
      (some 8)).gap = some 2 ∧
    (normalizeOrderBook [("orderbook:m1:*", 5)] gapMsg8 none).event ≠ none := by
  decide

/-- C3 (amended): when a sequence gap is detected on a live order-book or
trade message and the REST fallback fails, the feed yields the live
normalized event unchanged (and made exactly one REST attempt); the live
event is not dropped. -/
theorem C3_fallback_failure_yields_live_event :
    (∀ (tracker : List (String × ℤ)) (d : RawFeedData),
        d.market_id ≠ "" →
        (detectSequenceGap tracker "orderbook" d.market_id (normOutcomeId d)
            d.sequence).gap ≠ none →
        normalizeOrderBook tracker d none =
          { event := some (liveOrderBookEvent d),
            tracker := (detectSequenceGap tracker "orderbook" d.market_id
              (normOutcomeId d) d.sequence).tracker,
            restCalls := 1 }) ∧
    (∀ (tracker : List (String × ℤ)) (d : RawFeedData),
        d.market_id ≠ "" →
        (detectSequenceGap tracker "trade" d.market_id (normOutcomeId d)
            d.sequence).gap ≠ none →
        normalizeTrade tracker d none =
          { event := some (liveTradeEvent d),
            tracker := (detectSequenceGap tracker "trade" d.market_id
              (normOutcomeId d) d.sequence).tracker,
            restCalls := 1 }) := by
  constructor
  · intro tracker d hne hgap
    simp only [normalizeOrderBook]
    rw [if_neg hne]
    cases hres : (detectSequenceGap tracker "orderbook" d.market_id
        (normOutcomeId d) d.sequence).gap with
    | none => exact absurd hres hgap
    | some g => simp [hres]
  · intro tracker d hne hgap
    simp only [normalizeTrade]
    rw [if_neg hne]
    cases hres : (detectSequenceGap tracker "trade" d.market_id
        (normOutcomeId d) d.sequence).gap with
    | none => exact absurd hres hgap
    | some g => simp [hres]

/-- Witness for C3's amended theorem at the concrete 5-then-8 gap. -/
theorem C3_fallback_failure_yields_live_event_witness :
    (gapMsg8.market_id ≠ "" ∧
     (detectSequenceGap [("orderbook:m1:*", 5)] "orderbook" gapMsg8.market_id
        (normOutcomeId gapMsg8) gapMsg8.sequence).gap ≠ none) ∧
    normalizeOrderBook [("orderbook:m1:*", 5)] gapMsg8 none =
      { event := some (liveOrderBookEvent gapMsg8),
        tracker := (detectSequenceGap [("orderbook:m1:*", 5)] "orderbook"
          gapMsg8.market_id (normOutcomeId gapMsg8) gapMsg8.sequence).tracker,
        restCalls := 1 } :=
  ⟨⟨by decide, by decide⟩,
   C3_fallback_failure_yields_live_event.1 [("orderbook:m1:*", 5)] gapMsg8
     (by decide) (by decide)⟩

/-- C4 counterexample: a repeated sequence number (5 after 5) is not
`incoming > last + 1`, yet the code detects a gap, refuting the claimed
"if and only if". -/
theorem C4_gap_iff_counterexample :
    (detectSequenceGap [("orderbook:m1:*", 5)] "orderbook" "m1" none
      (some 5)).gap ≠ none ∧
    ¬ (5 : ℤ) > 5 + 1 := by
  decide

/-- C4 (amended): per composite key with a stored prior sequence, a gap is
detected iff the incoming sequence differs from `last + 1` (with gap size
`incoming − last − 1`), and the tracker always stores the incoming sequence.
Sequence numbers 5 then 8 for the same key produce no REST call then exactly
one REST call, with one detected gap of size 2. -/
theorem C4_gap_detection :
    (∀ (tracker : List (String × ℤ)) (et mid : String) (oid : Option String)
        (s p : ℤ),
        alookup tracker (sequenceKey et mid oid) = some p →
        detectSequenceGap tracker et mid oid (some s) =
          { gap := if s = p + 1 then none else some (s - p - 1),
            tracker := aput tracker (sequenceKey et mid oid) s }) ∧
    (detectSequenceGap [] "orderbook" "m1" none (some 5)).gap = none ∧
    (normalizeOrderBook [] gapMsg5 none).restCalls = 0 ∧
    (normalizeOrderBook (normalizeOrderBook [] gapMsg5 none).tracker gapMsg8
      none).restCalls = 1 ∧
    (detectSequenceGap (normalizeOrderBook [] gapMsg5 none).tracker
      "orderbook" "m1" none (some 8)).gap = some 2 := by
  refine ⟨?_, by decide, by decide, by decide, by decide⟩
  intro tracker et mid oid s p hprev
  simp only [detectSequenceGap, hprev]
  split_ifs <;> rfl

/-- Witness for C4's amended theorem: stored sequence 5, incoming 8. -/
theorem C4_gap_detection_witness :
    alookup [("orderbook:m1:*", (5 : ℤ))] (sequenceKey "orderbook" "m1" none)
      = some 5 ∧
    detectSequenceGap [("orderbook:m1:*", (5 : ℤ))] "orderbook" "m1" none
      (some 8) =
      { gap := if (8 : ℤ) = 5 + 1 then none else some (8 - 5 - 1),
        tracker := aput [("orderbook:m1:*", (5 : ℤ))]
          (sequenceKey "orderbook" "m1" none) 8 } :=
  ⟨by decide,
   C4_gap_detection.1 [("orderbook:m1:*", (5 : ℤ))] "orderbook" "m1" none 8 5
     (by decide)⟩

/-- Looking up a key just written into an association list yields the written
value. -/
theorem alookup_aput {α β : Type} [DecidableEq α] (l : List (α × β)) (k : α)
    (v : β) : alookup (aput l k v) k = some v := by
  induction l with
  | nil => simp [aput, alookup]
  | cons h t ih =>
      by_cases hk : h.1 = k
      · simp [aput, hk, alookup]
      · simp [aput, hk, alookup, ih]

/-- When the circuit is closed, the book fresh, and no hedge circuit open,
`execute_complete_set` proceeds to stage 4. -/
theorem executeCompleteSet_open (ex : Executor) (st : ExecState)
    (opp : CompleteSetOpportunity) (market : MarketBook) (size : Option ℚ)
    (nowWall nowMono : ℚ) (resp : ℕ → LegResponse)
    (hhalt : st.halted_reason = none)
    (hstale : nowWall - market.last_update ≤ ex.cfg.max_data_staleness_seconds)
    (hhedge : ex.hedge_circuit_open = false) :
    executeCompleteSet ex st opp market size nowWall nowMono resp =
      executeStagesFrom4 ex st opp market size nowMono resp := by
  simp only [executeCompleteSet, hhalt, hhedge]
  rw [if_neg (not_lt.mpr hstale)]
  simp

/-- A successful idempotency claim writes the current time under the key. -/
theorem claimIdempotency_true_ledger (ttl : ℚ) (l : List (OppKey × ℚ))
    (k : OppKey) (now : ℚ)
    (h : (claimIdempotency ttl l k now).1 = true) :
    (claimIdempotency ttl l k now).2 = aput l k now := by
  unfold claimIdempotency at h ⊢
  cases hl : alookup l k with
  | none => simp [hl]
  | some r =>
      simp only [hl] at h ⊢
      by_cases hc : r ≠ 0 ∧ now - r < ttl
      · rw [if_pos hc] at h; simp at h
      · rw [if_neg hc]

/-- The risk stage never touches the idempotency ledger. -/
theorem passesRiskLimits_recent (ex : Executor) (st : ExecState)
    (opp : CompleteSetOpportunity) (market : MarketBook)
    (tradeSize notional : ℚ) :
    (passesRiskLimits ex st opp market tradeSize
      notional).2.recent_opportunities = st.recent_opportunities := by
  unfold passesRiskLimits tripCircuit
  split_ifs <;> try rfl
  cases hrl : ex.risk_limits with
  | none => simp [hrl]
  | some rl =>
      simp only [hrl]
      split_ifs <;> rfl

/-- A halted executor skips immediately with the stored reason and unchanged
state. -/
theorem halted_skip (ex : Executor) (st : ExecState)
    (opp : CompleteSetOpportunity) (market : MarketBook) (size : Option ℚ)
    (nowWall nowMono : ℚ) (resp : ℕ → LegResponse) (r : String)
    (h : st.halted_reason = some r) :
    executeCompleteSet ex st opp market size nowWall nowMono resp =
      (skipReport (some r), st) := by
  simp only [executeCompleteSet, h]

/-- A repeated opportunity key claimed within the TTL is skipped as a
duplicate with completely unchanged state. -/
theorem duplicate_skip (ex : Executor) (st : ExecState)
    (opp : CompleteSetOpportunity) (market : MarketBook) (size : Option ℚ)
    (nowWall nowMono t1 : ℚ) (resp : ℕ → LegResponse)
    (hhalt : st.halted_reason = none)
    (hstale : nowWall - market.last_update ≤ ex.cfg.max_data_staleness_seconds)
    (hhedge : ex.hedge_circuit_open = false)
    (hlook : alookup st.recent_opportunities (oppKey opp) = some t1)
    (ht1 : t1 ≠ 0)
    (hlt : nowMono - t1 < ex.cfg.idempotency_ttl_seconds) :
    executeCompleteSet ex st opp market size nowWall nowMono resp =
      (skipReport (some "duplicate"), st) := by
  have hgate := executeCompleteSet_open ex st opp market size nowWall nowMono
    resp hhalt hstale hhedge
  have hclaim : claimIdempotency ex.cfg.idempotency_ttl_seconds
      st.recent_opportunities (oppKey opp) nowMono =
      (false, st.recent_opportunities) := by
    unfold claimIdempotency
    rw [hlook]
    exact if_pos ⟨ht1, hlt⟩
  rw [hgate]
  simp only [executeStagesFrom4, hclaim]
  simp

/-- C5: a second `execute_complete_set` call whose opportunity carries the
same idempotency key within `idempotency_ttl_seconds` of the first claim is
skipped with reason "duplicate", submitting no orders and leaving the state
(including the ledger) unchanged; once the TTL has elapsed since the last
claim, a claim on the same key succeeds again (and re-stamps the key). -/
theorem C5_idempotency_ttl :
    (∀ (ex : Executor) (st : ExecState) (opp : CompleteSetOpportunity)
        (market : MarketBook) (size : Option ℚ) (nowWall nowMono t1 : ℚ)
        (resp : ℕ → LegResponse),
        st.halted_reason = none →
        nowWall - market.last_update ≤ ex.cfg.max_data_staleness_seconds →
        ex.hedge_circuit_open = false →
        alookup st.recent_opportunities (oppKey opp) = some t1 →
        0 < t1 →
        nowMono - t1 < ex.cfg.idempotency_ttl_seconds →
        executeCompleteSet ex st opp market size nowWall nowMono resp =
          (skipReport (some "duplicate"), st)) ∧
    (∀ (ttl : ℚ) (ledger : List (OppKey × ℚ)) (key : OppKey) (t1 now : ℚ),
        alookup ledger key = some t1 →
        ttl ≤ now - t1 →
        claimIdempotency ttl ledger key now = (true, aput ledger key now)) := by
  constructor
  · intro ex st opp market size nowWall nowMono t1 resp hhalt hstale hhedge
      hlook ht1 hlt
    exact duplicate_skip ex st opp market size nowWall nowMono t1 resp hhalt
      hstale hhedge hlook (ne_of_gt ht1) hlt
  · intro ttl ledger key t1 now hlook hge
    simp only [claimIdempotency, hlook]
    rw [if_neg (fun h => absurd h.2 (not_lt.mpr hge))]

/-- Witness for C5: a key claimed at monotonic time 5 is rejected as a
duplicate when re-claimed at time 5 under the default 60-second TTL. -/
theorem C5_idempotency_ttl_witness :
    (st5.halted_reason = none ∧
     (0 : ℚ) - c1Book.last_update ≤ ex0.cfg.max_data_staleness_seconds ∧
     ex0.hedge_circuit_open = false ∧
     alookup st5.recent_opportunities (oppKey oppBuy) = some 5 ∧
     (0 : ℚ) < 5 ∧
     (5 : ℚ) - 5 < ex0.cfg.idempotency_ttl_seconds) ∧
    executeCompleteSet ex0 st5 oppBuy c1Book none 0 5 respTimeout =
      (skipReport (some "duplicate"), st5) :=
  ⟨⟨rfl, by simp [c1Book, ex0], rfl, by simp [st5, alookup], by simp,
    by simp [ex0]⟩,
   C5_idempotency_ttl.1 ex0 st5 oppBuy c1Book none 0 5 5 respTimeout rfl
     (by simp [c1Book, ex0]) rfl (by simp [st5, alookup]) (by simp)
     (by simp [ex0])⟩

/-- C6: a leg timeout or rejection increments the consecutive reject streak
and trips the circuit with reason "reject_streak" upon reaching
`max_reject_streak`; any leg response with filled quantity > 0 resets the
streak to zero; and once the circuit is tripped for any reason, every
subsequent `execute_complete_set` call is skipped with the stored halt reason
and the state never changes (no automatic recovery). -/
theorem C6_reject_streak_circuit :
    (∀ (ex : Executor) (st : ExecState) (request : OrderRequest)
        (orderId : String) (market : MarketBook),
        (submitOrder ex st request orderId market .timeout).1.status =
          "timeout" ∧
        (submitOrder ex st request orderId market .timeout).2.reject_streak =
          st.reject_streak + 1 ∧
        (ex.cfg.max_reject_streak ≤ st.reject_streak + 1 →
          (submitOrder ex st request orderId market
            .timeout).2.halted_reason = some "reject_streak")) ∧
    (∀ (ex : Executor) (st : ExecState) (request : OrderRequest)
        (orderId : String) (market : MarketBook) (filled : ℚ)
        (price : Option ℚ),
        (submitOrder ex st request orderId market
          (.reply true filled price)).1.status = "rejected" ∧
        (submitOrder ex st request orderId market
          (.reply true filled price)).2.reject_streak =
          st.reject_streak + 1 ∧
        (ex.cfg.max_reject_streak ≤ st.reject_streak + 1 →
          (submitOrder ex st request orderId market
            (.reply true filled price)).2.halted_reason =
            some "reject_streak")) ∧
    (∀ (ex : Executor) (st : ExecState) (request : OrderRequest)
        (orderId : String) (market : MarketBook) (filled : ℚ)
        (price : Option ℚ),
        0 < filled →
        (submitOrder ex st request orderId market
          (.reply false filled price)).2.reject_streak = 0) ∧
    (∀ (ex : Executor) (st : ExecState) (r : String) (calls : List CallArgs),
        st.halted_reason = some r →
        (runCalls ex st calls).2 = st ∧
        ∀ rep ∈ (runCalls ex st calls).1, rep = skipReport (some r)) := by
  refine ⟨?_, ?_, ?_, ?_⟩
  · intro ex st request orderId market
    refine ⟨rfl, ?_, ?_⟩
    · simp only [submitOrder, handleReject, tripCircuit]
      split_ifs <;> rfl
    · intro h
      simp only [submitOrder, handleReject, tripCircuit]
      rw [if_pos h]
  · intro ex st request orderId market filled price
    refine ⟨?_, ?_, ?_⟩
    · simp [submitOrder]
    · simp only [submitOrder, handleReject, tripCircuit]
      split_ifs <;> simp_all
    · intro h
      simp only [submitOrder, handleReject, tripCircuit]
      split_ifs <;> simp_all
  · intro ex st request orderId market filled price hf
    simp only [submitOrder]
    rw [if_neg (by simp), if_pos hf]
  · intro ex st r calls hhalt
    induction calls with
    | nil => exact ⟨rfl, by simp [runCalls]⟩
    | cons c cs ih =>
        have hstep := halted_skip ex st c.opp c.market c.size c.nowWall
          c.nowMono c.resp r hhalt
        constructor
        · simp only [runCalls, hstep]
          exact ih.1
        · intro rep hrep
          simp only [runCalls, hstep, List.mem_cons] at hrep
          rcases hrep with h | h
          · exact h
          · exact ih.2 rep h

/-- Witness for C6: a third consecutive timeout under the default
`max_reject_streak = 3` trips the circuit. -/
theorem C6_reject_streak_circuit_witness :
    ex0.cfg.max_reject_streak ≤ st2.reject_streak + 1 ∧
    (submitOrder ex0 st2 reqBuyYes "buy-0" c1Book .timeout).2.halted_reason =
      some "reject_streak" :=
  ⟨by decide,
   (C6_reject_streak_circuit.1 ex0 st2 reqBuyYes "buy-0" c1Book).2.2
     (by decide)⟩

/-- C7 counterexample: a buy_set re-validation against a current book with no
asks is skipped with reason "edge_erased" even though the projected cost
(zero) is below 1.0, refuting the claimed "exactly when the projected cost is
no longer below 1.0". -/
theorem C7_edge_erased_counterexample :
    (executeCompleteSet ex0 st0 oppBuy bidOnlyBook none 0 5 respTimeout).1 =
      skipReport (some "edge_erased") ∧
    sumFieldAsk bidOnlyBook * (1 + ex0.cfg.max_slippage_pct) *
      (1 + ((bidOnlyBook.fee_bps.getD 0 : ℤ) : ℚ) / 10000) < 1 := by
  constructor
  · norm_num [executeCompleteSet, executeStagesFrom4, claimIdempotency,
      alookup, aput, edgeSurvivesCosts, sumFieldAsk, bidOnlyBook, oppBuy,
      ex0, st0, skipReport]
  · norm_num [sumFieldAsk, bidOnlyBook, ex0]

/-- C7 (amended): when the call reaches stage 5, it is skipped with reason
"edge_erased" exactly when the current-book re-validation fails, and that
re-validation passes exactly when the relevant side-sum over the current book
is positive and the slippage- and fee-adjusted projection beats 1.0 (cost
below 1.0 for buy_set, proceeds above 1.0 for sell_set). -/
theorem C7_edge_erased_revalidation :
    ∀ (ex : Executor) (st : ExecState) (opp : CompleteSetOpportunity)
      (market : MarketBook) (size : Option ℚ) (nowWall nowMono : ℚ)
      (resp : ℕ → LegResponse),
      st.halted_reason = none →
      nowWall - market.last_update ≤ ex.cfg.max_data_staleness_seconds →
      ex.hedge_circuit_open = false →
      (claimIdempotency ex.cfg.idempotency_ttl_seconds
        st.recent_opportunities (oppKey opp) nowMono).1 = true →
      (((executeCompleteSet ex st opp market size nowWall nowMono
          resp).1.reason = some "edge_erased") ↔
        edgeSurvivesCosts ex.cfg opp market = false) ∧
      edgeSurvivesCosts ex.cfg opp market =
        (if opp.direction = "buy_set" then
          decide (0 < sumFieldAsk market) &&
            decide (sumFieldAsk market * (1 + ex.cfg.max_slippage_pct) *
              (1 + ((market.fee_bps.getD 0 : ℤ) : ℚ) / 10000) < 1)
        else
          decide (0 < sumFieldBid market) &&
            decide (1 < sumFieldBid market * (1 - ex.cfg.max_slippage_pct) /
              (1 + ((market.fee_bps.getD 0 : ℤ) : ℚ) / 10000))) := by
  intro ex st opp market size nowWall nowMono resp hhalt hstale hhedge hcl
  constructor
  · rw [executeCompleteSet_open ex st opp market size nowWall nowMono resp
      hhalt hstale hhedge]
    simp only [executeStagesFrom4, hcl]
    cases he : edgeSurvivesCosts ex.cfg opp market with
    | false => simp +decide [he, skipReport]
    | true =>
        rw [if_neg (by simp)]
        by_cases hts : computeTradeSize size opp ≤ 0
        · simp +decide [hts, skipReport]
        · simp only [if_neg hts]
          by_cases hrk : (passesRiskLimits ex
              { st with recent_opportunities :=
                (claimIdempotency ex.cfg.idempotency_ttl_seconds
                  st.recent_opportunities (oppKey opp) nowMono).2 }
              opp market (computeTradeSize size opp)
              (estimateNotional ex.cfg opp market
                (computeTradeSize size opp))).1 = false
          · simp +decide [hrk, skipReport]
          · simp only [if_neg hrk]
            by_cases hd : opp.direction = "buy_set" <;>
              simp +decide [hd, skipReport]
  · unfold edgeSurvivesCosts
    by_cases hd : opp.direction = "buy_set"
    · rw [if_pos hd, if_pos hd]
      by_cases ha : sumFieldAsk market ≤ 0
      · rw [if_pos ha, decide_eq_false (not_lt.mpr ha)]
        simp
      · rw [if_neg ha, decide_eq_true (not_le.mp ha)]
        simp
    · rw [if_neg hd, if_neg hd]
      by_cases hb : sumFieldBid market ≤ 0
      · rw [if_pos hb, decide_eq_false (not_lt.mpr hb)]
        simp
      · rw [if_neg hb, decide_eq_true (not_le.mp hb)]
        simp

/-- Witness for C7's amended theorem on the risen-ask book. -/
theorem C7_edge_erased_revalidation_witness :
    (st0.halted_reason = none ∧
     (0 : ℚ) - richAskBook.last_update ≤ ex0.cfg.max_data_staleness_seconds ∧
     ex0.hedge_circuit_open = false ∧
     (claimIdempotency ex0.cfg.idempotency_ttl_seconds
       st0.recent_opportunities (oppKey oppBuy) 5).1 = true) ∧
    ((((executeCompleteSet ex0 st0 oppBuy richAskBook none 0 5
        respTimeout).1.reason = some "edge_erased") ↔
      edgeSurvivesCosts ex0.cfg oppBuy richAskBook = false) ∧
     edgeSurvivesCosts ex0.cfg oppBuy richAskBook =
       (if oppBuy.direction = "buy_set" then
         decide (0 < sumFieldAsk richAskBook) &&
           decide (sumFieldAsk richAskBook * (1 + ex0.cfg.max_slippage_pct) *
             (1 + ((richAskBook.fee_bps.getD 0 : ℤ) : ℚ) / 10000) < 1)
       else
         decide (0 < sumFieldBid richAskBook) &&
           decide (1 < sumFieldBid richAskBook *
             (1 - ex0.cfg.max_slippage_pct) /
             (1 + ((richAskBook.fee_bps.getD 0 : ℤ) : ℚ) / 10000)))) :=
  ⟨⟨rfl, by simp [richAskBook, ex0], rfl,
    by simp [claimIdempotency, alookup, st0]⟩,
   C7_edge_erased_revalidation ex0 st0 oppBuy richAskBook none 0 5
     respTimeout rfl (by simp [richAskBook, ex0]) rfl
     (by simp [claimIdempotency, alookup, st0])⟩

/-- C8 counterexample: on a book whose third outcome carries a size but
quotes neither side, the emitted buy_set opportunity's `max_size` is 2 (the
minimum over all outcomes carrying a size), not 8 (the minimum over outcomes
with the relevant side present), refuting the claimed equality. -/
theorem C8_max_size_counterexample :
    (detectCompleteSetArb 10 c8Book).map CompleteSetOpportunity.max_size =
      some 2 ∧
    specSideMinSize c8Book "buy_set" = 8 ∧
    (2 : ℚ) ≠ 8 := by
  refine ⟨?_, ?_, by norm_num⟩
  · norm_num [detectCompleteSetArb, askSumOf, bidSumOf, collectedSizes,
      minList, feeMultiplier, edgeMeetsThreshold, bestOpportunity, c8Book,
      List.filterMap_cons, min_def]
  · norm_num [specSideMinSize, minList, c8Book, List.filterMap_cons, min_def]

/-- C8 (amended): every emitted opportunity's `max_size` equals the minimum
outcome size over outcomes carrying a size (regardless of which sides they
quote) and is positive; whenever that minimum is ≤ 0 (including when no
outcome carries a size) no opportunity is emitted. -/
theorem C8_max_size_invariant :
    (∀ (minEdgeBps : ℚ) (m : MarketBook) (opp : CompleteSetOpportunity),
        detectCompleteSetArb minEdgeBps m = some opp →
        opp.max_size = minList (collectedSizes m) ∧ 0 < opp.max_size) ∧
    (∀ (minEdgeBps : ℚ) (m : MarketBook),
        minList (collectedSizes m) ≤ 0 →
        detectCompleteSetArb minEdgeBps m = none) := by
  constructor
  · intro minE m opp h
    simp only [detectCompleteSetArb] at h
    by_cases hlen : m.outcomes.length < 2
    · simp [hlen] at h
    · rw [if_neg hlen] at h
      by_cases hms : minList (collectedSizes m) ≤ 0
      · rw [if_pos hms] at h
        exact absurd h (by simp)
      · rw [if_neg hms] at h
        have hpos : 0 < minList (collectedSizes m) := not_le.mp hms
        by_cases h1 : edgeMeetsThreshold minE (1 - askSumOf m) <;>
          by_cases h2 : edgeMeetsThreshold minE (bidSumOf m - 1) <;>
            simp [h1, h2, bestOpportunity] at h
        · split at h <;> rw [← h] <;> exact ⟨rfl, hpos⟩
        · rw [← h]; exact ⟨rfl, hpos⟩
        · rw [← h]; exact ⟨rfl, hpos⟩
  · intro minE m hms
    simp only [detectCompleteSetArb]
    by_cases hlen : m.outcomes.length < 2
    · rw [if_pos hlen]
    · rw [if_neg hlen, if_pos hms]

/-- The detector emits exactly `c8Opp` on `c8Book` at `min_edge_bps = 10`. -/
theorem detect_c8Book_eval : detectCompleteSetArb 10 c8Book = some c8Opp := by
  norm_num [detectCompleteSetArb, askSumOf, bidSumOf, collectedSizes, minList,
    feeMultiplier, edgeMeetsThreshold, bestOpportunity, c8Book, c8Opp,
    List.filterMap_cons, min_def]

/-- Witness for C8's amended invariant on the concrete `c8Book`. -/
theorem C8_max_size_invariant_witness :
    detectCompleteSetArb 10 c8Book = some c8Opp ∧
    c8Opp.max_size = minList (collectedSizes c8Book) ∧ 0 < c8Opp.max_size :=
  ⟨detect_c8Book_eval,
   (C8_max_size_invariant.1 10 c8Book c8Opp detect_c8Book_eval).1,
   (C8_max_size_invariant.1 10 c8Book c8Opp detect_c8Book_eval).2⟩

/-- C9: `validate_position` and `within_caps` return false for any symbol
with no configured entry; consequently, when inventory caps (respectively
risk limits) are attached and some projected leg's symbol has no entry in
`caps` (respectively `max_position_sizes`), a call reaching the risk stage is
skipped with reason "risk_blocked" (and no orders): absence of a configured
cap blocks trading rather than permitting it. -/
theorem C9_unconfigured_symbol_blocks :
    (∀ (rl : RiskLimits) (symbol : String) (q : ℚ),
        alookup rl.max_position_sizes symbol = none →
        rl.validate_position symbol q = false) ∧
    (∀ (ic : InventoryCaps) (symbol : String) (q : ℚ),
        alookup ic.caps symbol = none →
        ic.within_caps symbol q = false) ∧
    (∀ (ex : Executor) (st : ExecState) (opp : CompleteSetOpportunity)
        (market : MarketBook) (size : Option ℚ) (nowWall nowMono : ℚ)
        (resp : ℕ → LegResponse) (ic : InventoryCaps) (sp : String × ℚ),
        st.halted_reason = none →
        nowWall - market.last_update ≤ ex.cfg.max_data_staleness_seconds →
        ex.hedge_circuit_open = false →
        (claimIdempotency ex.cfg.idempotency_ttl_seconds
          st.recent_opportunities (oppKey opp) nowMono).1 = true →
        edgeSurvivesCosts ex.cfg opp market = true →
        ¬ computeTradeSize size opp ≤ 0 →
        ex.inventory_caps = some ic →
        sp ∈ projectedInventory st.positions opp market
          (computeTradeSize size opp) →
        alookup ic.caps sp.1 = none →
        (executeCompleteSet ex st opp market size nowWall nowMono resp).1 =
          skipReport (some "risk_blocked")) ∧
    (∀ (ex : Executor) (st : ExecState) (opp : CompleteSetOpportunity)
        (market : MarketBook) (size : Option ℚ) (nowWall nowMono : ℚ)
        (resp : ℕ → LegResponse) (rl : RiskLimits) (sp : String × ℚ),
        st.halted_reason = none →
        nowWall - market.last_update ≤ ex.cfg.max_data_staleness_seconds →
        ex.hedge_circuit_open = false →
        (claimIdempotency ex.cfg.idempotency_ttl_seconds
          st.recent_opportunities (oppKey opp) nowMono).1 = true →
        edgeSurvivesCosts ex.cfg opp market = true →
        ¬ computeTradeSize size opp ≤ 0 →
        ex.risk_limits = some rl →
        sp ∈ projectedInventory st.positions opp market
          (computeTradeSize size opp) →
        alookup rl.max_position_sizes sp.1 = none →
        (executeCompleteSet ex st opp market size nowWall nowMono resp).1 =
          skipReport (some "risk_blocked")) := by
  have hbaseCaps : ∀ (ic : InventoryCaps) (symbol : String) (q : ℚ),
      alookup ic.caps symbol = none → ic.within_caps symbol q = false := by
    intro ic symbol q h
    unfold InventoryCaps.within_caps
    rw [h]
  have hbaseLimits : ∀ (rl : RiskLimits) (symbol : String) (q : ℚ),
      alookup rl.max_position_sizes symbol = none →
      rl.validate_position symbol q = false := by
    intro rl symbol q h
    unfold RiskLimits.validate_position
    rw [h]
  refine ⟨hbaseLimits, hbaseCaps, ?_, ?_⟩
  · intro ex st opp market size nowWall nowMono resp ic sp hhalt hstale
      hhedge hcl hedge hts hic hmem hcap
    rw [executeCompleteSet_open ex st opp market size nowWall nowMono resp
      hhalt hstale hhedge]
    simp only [executeStagesFrom4, hcl]
    rw [if_neg (by simp), if_neg (by simp [hedge]), if_neg hts]
    have hwl : positionsWithinLimits ex
        { st with recent_opportunities :=
          (claimIdempotency ex.cfg.idempotency_ttl_seconds
            st.recent_opportunities (oppKey opp) nowMono).2 }
        opp market (computeTradeSize size opp) = false := by
      unfold positionsWithinLimits
      rw [List.all_eq_false]
      refine ⟨sp, hmem, ?_⟩
      simp [hic, hbaseCaps ic sp.1 sp.2 hcap]
    have hrk : (passesRiskLimits ex
        { st with recent_opportunities :=
          (claimIdempotency ex.cfg.idempotency_ttl_seconds
            st.recent_opportunities (oppKey opp) nowMono).2 }
        opp market (computeTradeSize size opp)
        (estimateNotional ex.cfg opp market
          (computeTradeSize size opp))).1 = false := by
      unfold passesRiskLimits
      split_ifs with h1 h2 <;> try rfl
    rw [if_pos (by simp [hrk])]
  · intro ex st opp market size nowWall nowMono resp rl sp hhalt hstale
      hhedge hcl hedge hts hrl hmem hcap
    rw [executeCompleteSet_open ex st opp market size nowWall nowMono resp
      hhalt hstale hhedge]
    simp only [executeStagesFrom4, hcl]
    rw [if_neg (by simp), if_neg (by simp [hedge]), if_neg hts]
    have hwl : positionsWithinLimits ex
        { st with recent_opportunities :=
          (claimIdempotency ex.cfg.idempotency_ttl_seconds
            st.recent_opportunities (oppKey opp) nowMono).2 }
        opp market (computeTradeSize size opp) = false := by
      unfold positionsWithinLimits
      rw [List.all_eq_false]
      refine ⟨sp, hmem, ?_⟩
      simp [hrl, hbaseLimits rl sp.1 sp.2 hcap]
    have hrk : (passesRiskLimits ex
        { st with recent_opportunities :=
          (claimIdempotency ex.cfg.idempotency_ttl_seconds
            st.recent_opportunities (oppKey opp) nowMono).2 }
        opp market (computeTradeSize size opp)
        (estimateNotional ex.cfg opp market
          (computeTradeSize size opp))).1 = false := by
      unfold passesRiskLimits
      split_ifs with h1 h2 <;> try rfl
    rw [if_pos (by simp [hrk])]

/-- The buy edge survives slippage and fees on the original m1 book under the
default configuration. -/
theorem edge_survives_c1Book :
    edgeSurvivesCosts exCaps.cfg oppBuy c1Book = true := by
  norm_num [edgeSurvivesCosts, sumFieldAsk, c1Book, oppBuy, exCaps,
    List.filterMap_cons]

/-- The buy edge also survives under the risk-limits executor's (default)
configuration. -/
theorem edge_survives_c1Book_limits :
    edgeSurvivesCosts exLimits.cfg oppBuy c1Book = true := by
  norm_num [edgeSurvivesCosts, sumFieldAsk, c1Book, oppBuy, exLimits,
    List.filterMap_cons]

/-- Witness for C9 on the m1 book: once with an attached empty inventory-caps
table, once with attached risk limits whose per-symbol table is empty. -/
theorem C9_unconfigured_symbol_blocks_witness :
    ((edgeSurvivesCosts exCaps.cfg oppBuy c1Book = true ∧
      ¬ computeTradeSize none oppBuy ≤ 0 ∧
      ("m1:yes", (10 : ℚ)) ∈ projectedInventory st0.positions oppBuy c1Book
        (computeTradeSize none oppBuy) ∧
      alookup (InventoryCaps.mk []).caps "m1:yes" = none) ∧
     (executeCompleteSet exCaps st0 oppBuy c1Book none 0 5 respTimeout).1 =
       skipReport (some "risk_blocked")) ∧
    ((edgeSurvivesCosts exLimits.cfg oppBuy c1Book = true ∧
      alookup rlEmpty.max_position_sizes "m1:yes" = none) ∧
     (executeCompleteSet exLimits st0 oppBuy c1Book none 0 5 respTimeout).1 =
       skipReport (some "risk_blocked")) :=
  ⟨⟨⟨edge_survives_c1Book, by simp [computeTradeSize, oppBuy],
     by simp [projectedInventory, computeTradeSize, oppBuy, c1Book, st0,
       alookup, List.filterMap_cons],
     by simp [alookup]⟩,
    C9_unconfigured_symbol_blocks.2.2.1 exCaps st0 oppBuy c1Book none 0 5
      respTimeout ⟨[]⟩ ("m1:yes", 10) rfl (by simp [c1Book, exCaps]) rfl
      (by simp [claimIdempotency, alookup, st0]) edge_survives_c1Book
      (by simp [computeTradeSize, oppBuy])
      rfl
      (by simp [projectedInventory, computeTradeSize, oppBuy, c1Book, st0,
        alookup, List.filterMap_cons])
      (by simp [alookup])⟩,
   ⟨⟨edge_survives_c1Book_limits, by simp [rlEmpty, alookup]⟩,
    C9_unconfigured_symbol_blocks.2.2.2 exLimits st0 oppBuy c1Book none 0 5
      respTimeout rlEmpty ("m1:yes", 10) rfl (by simp [c1Book, exLimits]) rfl
      (by simp [claimIdempotency, alookup, st0]) edge_survives_c1Book_limits
      (by simp [computeTradeSize, oppBuy])
      rfl
      (by simp [projectedInventory, computeTradeSize, oppBuy, c1Book, st0,
        alookup, List.filterMap_cons])
      (by simp [rlEmpty, alookup])⟩⟩

/-- C10: the idempotency key is claimed before the edge, size and risk
stages, so a call skipped with reason "edge_erased", "no_size_available" or
"risk_blocked" still stamps the key with the call's monotonic time; and a
rejected duplicate claim within the TTL leaves the state (including the
stored timestamp) completely unchanged while skipping with reason
"duplicate". -/
theorem C10_idempotency_claimed_first :
    (∀ (ex : Executor) (st : ExecState) (opp : CompleteSetOpportunity)
        (market : MarketBook) (size : Option ℚ) (nowWall nowMono : ℚ)
        (resp : ℕ → LegResponse) (r : String),
        st.halted_reason = none →
        nowWall - market.last_update ≤ ex.cfg.max_data_staleness_seconds →
        ex.hedge_circuit_open = false →
        (executeCompleteSet ex st opp market size nowWall nowMono
          resp).1.reason = some r →
        (r = "edge_erased" ∨ r = "no_size_available" ∨ r = "risk_blocked") →
        alookup (executeCompleteSet ex st opp market size nowWall nowMono
          resp).2.recent_opportunities (oppKey opp) = some nowMono) ∧
    (∀ (ex : Executor) (st : ExecState) (opp : CompleteSetOpportunity)
        (market : MarketBook) (size : Option ℚ) (nowWall nowMono t1 : ℚ)
        (resp : ℕ → LegResponse),
        st.halted_reason = none →
        nowWall - market.last_update ≤ ex.cfg.max_data_staleness_seconds →
        ex.hedge_circuit_open = false →
        alookup st.recent_opportunities (oppKey opp) = some t1 →
        t1 ≠ 0 →
        nowMono - t1 < ex.cfg.idempotency_ttl_seconds →
        executeCompleteSet ex st opp market size nowWall nowMono resp =
          (skipReport (some "duplicate"), st)) := by
  constructor
  · intro ex st opp market size nowWall nowMono resp r hhalt hstale hhedge
      hres hr
    rw [executeCompleteSet_open ex st opp market size nowWall nowMono resp
      hhalt hstale hhedge] at hres ⊢
    simp only [executeStagesFrom4] at hres ⊢
    by_cases hcl : (claimIdempotency ex.cfg.idempotency_ttl_seconds
        st.recent_opportunities (oppKey opp) nowMono).1 = false
    · rw [if_pos hcl] at hres
      simp [skipReport] at hres
      rcases hr with h | h | h <;> rw [← hres] at h <;> simp at h
    · have hcl' : (claimIdempotency ex.cfg.idempotency_ttl_seconds
          st.recent_opportunities (oppKey opp) nowMono).1 = true := by
        cases h : (claimIdempotency ex.cfg.idempotency_ttl_seconds
            st.recent_opportunities (oppKey opp) nowMono).1
        · exact absurd h hcl
        · rfl
      have hledger := claimIdempotency_true_ledger
        ex.cfg.idempotency_ttl_seconds st.recent_opportunities (oppKey opp)
        nowMono hcl'
      rw [if_neg hcl] at hres ⊢
      by_cases he : edgeSurvivesCosts ex.cfg opp market = false
      · rw [if_pos he]
        simp only [hledger]
        exact alookup_aput st.recent_opportunities (oppKey opp) nowMono
      · rw [if_neg he] at hres ⊢
        by_cases hts : computeTradeSize size opp ≤ 0
        · rw [if_pos hts]
          simp only [hledger]
          exact alookup_aput st.recent_opportunities (oppKey opp) nowMono
        · rw [if_neg hts] at hres ⊢
          by_cases hrb : (passesRiskLimits ex
              { st with recent_opportunities :=
                (claimIdempotency ex.cfg.idempotency_ttl_seconds
                  st.recent_opportunities (oppKey opp) nowMono).2 }
              opp market (computeTradeSize size opp)
              (estimateNotional ex.cfg opp market
                (computeTradeSize size opp))).1 = false
          · rw [if_pos hrb]
            rw [passesRiskLimits_recent]
            simp only [hledger]
            exact alookup_aput st.recent_opportunities (oppKey opp) nowMono
          · rw [if_neg hrb] at hres
            by_cases hd : opp.direction = "buy_set" <;> simp [hd] at hres
  · intro ex st opp market size nowWall nowMono t1 resp hhalt hstale hhedge
      hlook ht1 hlt
    exact duplicate_skip ex st opp market size nowWall nowMono t1 resp hhalt
      hstale hhedge hlook ht1 hlt

/-- A call against the risen-ask book is skipped with reason "edge_erased". -/
theorem richAskBook_call_reason :
    (executeCompleteSet ex0 st0 oppBuy richAskBook none 0 5
      respTimeout).1.reason = some "edge_erased" := by
  norm_num [executeCompleteSet, executeStagesFrom4, claimIdempotency, alookup,
    aput, edgeSurvivesCosts, sumFieldAsk, richAskBook, oppBuy, ex0, st0,
    skipReport, List.filterMap_cons]

/-- Witness for C10: the edge_erased skip on the risen-ask book still stamps
the opportunity key at monotonic time 5. -/
theorem C10_idempotency_claimed_first_witness :
    ((executeCompleteSet ex0 st0 oppBuy richAskBook none 0 5
        respTimeout).1.reason = some "edge_erased") ∧
    alookup (executeCompleteSet ex0 st0 oppBuy richAskBook none 0 5
      respTimeout).2.recent_opportunities (oppKey oppBuy) = some 5 :=
  ⟨richAskBook_call_reason,
   C10_idempotency_claimed_first.1 ex0 st0 oppBuy richAskBook none 0 5
     respTimeout "edge_erased" rfl (by simp [richAskBook, ex0]) rfl
     richAskBook_call_reason (Or.inl rfl)⟩

end Poly
